import Mathlib

/-!
Verification of the style-resolution and block-layout engine of the
`violet` toy browser engine.  The Rust sources (`css.rs`, `dom.rs`,
`style.rs`, `layout.rs`) are shallowly embedded below: pure Rust
functions become Lean functions, `f32` pixel arithmetic is embedded as
exact rational arithmetic (`ℚ`), hash maps keyed by strings become
association lists where an insert prepends and a lookup takes the first
hit (so the most recent insert wins, as in the Rust `HashMap`), and the
fatal-error path of `build_layout_tree` is embedded as `Except`.
-/

namespace Violet

/-! ## CSS values (`core/src/css.rs`) -/

/-- Source `enum Unit` from `css.rs`; only `Px` exists. -/
inductive CssUnit where
  | Px
deriving DecidableEq, Repr

/-- Source `struct Color` from `css.rs`. -/
structure Color where
  r : Nat
  g : Nat
  b : Nat
  a : Nat
deriving DecidableEq, Repr

/-- Source `enum Value` from `css.rs`. -/
inductive Value where
  | Keyword (s : String)
  | Length (f : ℚ) (u : CssUnit)
  | Percentage (f : ℚ)
  | ColorValue (c : Color)
deriving DecidableEq, Repr

/-- Source `Value::to_px` from `css.rs`: the magnitude of a pixel length, `0.0`
for every other variant. -/
def Value.to_px : Value → ℚ
  | .Length f .Px => f
  | _ => 0

/-- Source `type Specificity = (usize, usize, usize)` from `css.rs`. -/
abbrev Specificity := Nat × Nat × Nat

/-- Source `struct SimpleSelector` from `css.rs`. -/
structure SimpleSelector where
  tag_name : Option String
  id : Option String
  class' : List String
deriving DecidableEq, Repr

/-- Source `enum Selector` from `css.rs`. -/
inductive Selector where
  | Simple (s : SimpleSelector)
deriving DecidableEq, Repr

/-- Source `Selector::specificity` from `css.rs`: the (id-count, class-count,
tag-count) triple. -/
def Selector.specificity : Selector → Specificity
  | .Simple simple => (simple.id.toList.length, simple.class'.length, simple.tag_name.toList.length)

/-- Source `struct Declaration` from `css.rs`. -/
structure Declaration where
  name : String
  value : Value
deriving DecidableEq, Repr

/-- Source `struct Rule` from `css.rs`. -/
structure Rule where
  selectors : List Selector
  declarations : List Declaration
deriving DecidableEq, Repr

/-- Source `struct Stylesheet` from `css.rs`. -/
structure Stylesheet where
  rules : List Rule
deriving DecidableEq, Repr

/-! ## DOM (`src/dom.rs`) -/

/-- Source `type AttrMap = HashMap<String, String>`: embedded as an association
list with unique keys; lookup takes the first hit. -/
abbrev AttrMap := List (String × String)

/-- Source `HashMap::get` on an attribute map. -/
def attrGet (m : AttrMap) (k : String) : Option String :=
  (m.find? (fun p => p.1 = k)).map (fun p => p.2)

/-- Source `struct ElementData` from `dom.rs`. -/
structure ElementData where
  tag_name : String
  attributes : AttrMap
deriving DecidableEq, Repr

/-- Source `enum NodeType` from `dom.rs`. -/
inductive NodeType where
  | Text (s : String)
  | Element (e : ElementData)
deriving DecidableEq, Repr

/-- Source `struct Node` from `dom.rs`. -/
inductive Node where
  | mk (children : List Node) (node_type : NodeType)

/-- The children of a DOM node. -/
def Node.children : Node → List Node
  | .mk cs _ => cs

/-- The node type of a DOM node. -/
def Node.node_type : Node → NodeType
  | .mk _ nt => nt

/-- Source `ElementData::id` from `dom.rs`: `self.attributes.get("id")`. -/
def ElementData.id (e : ElementData) : Option String :=
  attrGet e.attributes "id"

/-- Rust `str::split(c)`: splits at every occurrence of the character,
keeping empty tokens (so `"a  b"` yields `["a", "", "b"]` and `""`
yields `[""]`), exactly as the Rust standard library does; this is
`List.splitOn` on the character list. -/
def strSplit (c : Char) (s : String) : List String :=
  (s.data.splitOn c).map String.mk

/-- Source `ElementData::classes` from `dom.rs`: the `class` attribute split on
the space character (Rust `classlist.split(' ')`), the empty collection
when the attribute is absent.  The Rust function returns a `HashSet`;
the embedding returns the token list, with set semantics given by list
membership. -/
def ElementData.classes (e : ElementData) : List String :=
  match attrGet e.attributes "class" with
  | some classlist => strSplit ' ' classlist
  | none => []

/-! ## Style resolution (`src/style.rs`) -/

/-- Source `type PropertyMap = HashMap<String, Value>`: embedded as an
association list; `pmInsert` prepends and `pmGet` takes the first hit,
so an insert overwrites any earlier entry for the same key, as a
`HashMap::insert` does. -/
abbrev PropertyMap := List (String × Value)

/-- Source `HashMap::get` on a property map. -/
def pmGet (m : PropertyMap) (k : String) : Option Value :=
  (m.find? (fun p => p.1 = k)).map (fun p => p.2)

/-- Source `HashMap::insert` on a property map. -/
def pmInsert (m : PropertyMap) (k : String) (v : Value) : PropertyMap :=
  (k, v) :: m

/-- Source `INHERIT_PROPS` from `style.rs`. -/
def INHERIT_PROPS : List String := ["color", "font-size", "font-weight", "line-height"]

/-- Source `create_default_props` from `style.rs`. -/
def create_default_props : PropertyMap :=
  pmInsert (pmInsert (pmInsert (pmInsert [] "color" (.Keyword "#000000"))
    "font-size" (.Length 16 .Px)) "font-weight" (.Keyword "normal"))
    "line-height" (.Keyword "normal")

/-- Source `matches_simple_selector` from `style.rs`: tag equality if a tag is
specified, id equality if an id is specified, class containment for
every selector class — all simultaneously. -/
def matches_simple_selector (elem : ElementData) (selector : SimpleSelector) : Bool :=
  (selector.tag_name.all (fun name => elem.tag_name = name)) &&
  (selector.id.all (fun i => elem.id = some i)) &&
  (selector.class'.all (fun c => elem.classes.contains c))

/-- Source `matches` from `style.rs` (named `selector_matches` here because
`matches` is a reserved word in Lean). -/
def selector_matches (elem : ElementData) (selector : Selector) : Bool :=
  match selector with
  | .Simple simple => matches_simple_selector elem simple

/-- Source `type MatchedRule<'a> = (Specificity, &'a Rule)` from `style.rs`. -/
abbrev MatchedRule := Specificity × Rule

/-- Source `match_rule` from `style.rs`: the first selector of the rule that
matches the element, paired with that selector's specificity. -/
def match_rule (elem : ElementData) (rule : Rule) : Option MatchedRule :=
  (rule.selectors.find? (fun selector => selector_matches elem selector)).map
    (fun selector => (selector.specificity, rule))

/-- Source `matching_rules` from `style.rs`. -/
def matching_rules (elem : ElementData) (stylesheet : Stylesheet) : List MatchedRule :=
  stylesheet.rules.filterMap (fun rule => match_rule elem rule)

/-- Lexicographic `≤` on specificity triples, mirroring the derived
`Ord` on the Rust tuple `(usize, usize, usize)`. -/
def specLe (a b : Specificity) : Bool :=
  a.1 < b.1 || (a.1 = b.1 && (a.2.1 < b.2.1 || (a.2.1 = b.2.1 && a.2.2 ≤ b.2.2)))

/-- Insert into a list sorted by specificity, placing the new element
before the first element it is `≤` to.  Used by `sortRules`. -/
def insertSorted (x : MatchedRule) : List MatchedRule → List MatchedRule
  | [] => [x]
  | y :: ys => if specLe x.1 y.1 then x :: y :: ys else y :: insertSorted x ys

/-- Source `rules.sort_by(|(a, _), (b, _)| a.cmp(b))` from `specified_values`:
a stable sort ascending by specificity.  Insertion sort is stable, and a
stable sort by a total preorder has a unique result, so this coincides
with Rust's (stable) `sort_by`. -/
def sortRules : List MatchedRule → List MatchedRule
  | [] => []
  | x :: xs => insertSorted x (sortRules xs)

/-- The body of the declaration loop in `specified_values`
(`style.rs` lines 63-73): an `inherit`-valued declaration copies the
parent's value for the same property name if the parent has one and is
otherwise dropped; any other declaration is inserted as given. -/
def applyDecl (parent_prop_map : PropertyMap) (values : PropertyMap) (declaration : Declaration) : PropertyMap :=
  if declaration.value = Value.Keyword "inherit" then
    match pmGet parent_prop_map declaration.name with
    | some x => pmInsert values declaration.name x
    | none => values
  else
    pmInsert values declaration.name declaration.value

/-- The inner `for declaration in &rule.declarations` loop of
`specified_values`. -/
def foldDecls (parent_prop_map : PropertyMap) (values : PropertyMap) (declarations : List Declaration) : PropertyMap :=
  declarations.foldl (applyDecl parent_prop_map) values

/-- Source `specified_values` from `style.rs`: seed the map with the parent's
values for the fixed inheritable properties, then apply the matched
rules' declarations in ascending-specificity (stable-sorted) order. -/
def specified_values (elem : ElementData) (stylesheet : Stylesheet) (parent_prop_map : PropertyMap) : PropertyMap :=
  let values : PropertyMap :=
    INHERIT_PROPS.foldl (fun vs prop_name =>
      match pmGet parent_prop_map prop_name with
      | some x => pmInsert vs prop_name x
      | none => vs) []
  let rules := sortRules (matching_rules elem stylesheet)
  rules.foldl (fun vs r => foldDecls parent_prop_map vs r.2.declarations) values

/-- Source `struct StyledNode` from `style.rs`.  The Rust struct borrows the
DOM node; the embedding stores it by value. -/
inductive StyledNode where
  | mk (node : Node) (specified_values : PropertyMap) (children : List StyledNode)

/-- The DOM node of a styled node. -/
def StyledNode.node : StyledNode → Node
  | .mk n _ _ => n

/-- The property map of a styled node. -/
def StyledNode.specified_values : StyledNode → PropertyMap
  | .mk _ sv _ => sv

/-- The children of a styled node. -/
def StyledNode.children : StyledNode → List StyledNode
  | .mk _ _ cs => cs

mutual

/-- Source `style_tree_rec` from `style.rs`: elements get `specified_values`,
text nodes get an empty map, and the children are styled recursively
against the freshly computed map. -/
def style_tree_rec (root : Node) (stylesheet : Stylesheet) (parent_prop_map : PropertyMap) : StyledNode :=
  match root with
  | .mk children node_type =>
    let sv : PropertyMap :=
      match node_type with
      | .Element elem => specified_values elem stylesheet parent_prop_map
      | .Text _ => []
    .mk (.mk children node_type) sv (style_tree_children children stylesheet sv)

/-- The `root.children.iter().map(...)` step of `style_tree_rec`. -/
def style_tree_children (children : List Node) (stylesheet : Stylesheet) (parent_prop_map : PropertyMap) : List StyledNode :=
  match children with
  | [] => []
  | c :: cs => style_tree_rec c stylesheet parent_prop_map :: style_tree_children cs stylesheet parent_prop_map

end

/-- Source `style_tree` from `style.rs`. -/
def style_tree (root : Node) (stylesheet : Stylesheet) : StyledNode :=
  style_tree_rec root stylesheet create_default_props

/-! ## Styled-node accessors used by `layout.rs`

`layout.rs` calls `StyledNode::value`, `StyledNode::lookup` and
`StyledNode::display`, whose definitions are not among the provided
source files (only their callers in `layout.rs` are); they are modelled
from the spec below. -/

/-- Modelled from the spec: `StyledNode::value` (missing from the
provided sources; §7 of the spec: "missing style properties default to
`auto`/zero-length/absent" via the callers' `unwrap_or`) — the resolved
value for a property name, absent when unmatched. -/
def StyledNode.value (style : StyledNode) (name : String) : Option Value :=
  pmGet style.specified_values name

/-- Modelled from the spec: `StyledNode::lookup` (missing from the
provided sources; spec §4.2: "a two-level lookup: a specific property
name (e.g. `margin-left`), falling back to a shorthand property name
(e.g. `margin`), falling back to a zero length" — the zero default is
passed by the caller). -/
def StyledNode.lookup (style : StyledNode) (name : String) (fallback_name : String) (default : Value) : Value :=
  match style.value name with
  | some v => v
  | none =>
    match style.value fallback_name with
    | some v => v
    | none => default

/-- Source `enum Display` from `style.rs`' interface as used by `layout.rs`. -/
inductive Display where
  | Block
  | Inline
  | None
deriving DecidableEq, Repr

/-- Modelled from the spec: `StyledNode::display` (missing from the
provided sources; spec §4.2: "classify each Styled Node's `display`
property (absent/unsupported → treated as `inline`; explicit values are
`block`, `inline`, or `none`)"). -/
def StyledNode.display (style : StyledNode) : Display :=
  match style.value "display" with
  | some (.Keyword s) => if s = "block" then .Block else if s = "none" then .None else .Inline
  | _ => .Inline

/-! ## Layout boxes (`src/layout.rs`) -/

/-- Source `struct Rect` from `layout.rs`. -/
structure Rect where
  x : ℚ
  y : ℚ
  width : ℚ
  height : ℚ
deriving DecidableEq, Repr

/-- Source `struct EdgeSize` from `layout.rs`. -/
structure EdgeSize where
  left : ℚ
  right : ℚ
  top : ℚ
  bottom : ℚ
deriving DecidableEq, Repr

/-- Source `struct Dimensions` from `layout.rs`. -/
structure Dimensions where
  content : Rect
  padding : EdgeSize
  border : EdgeSize
  margin : EdgeSize
deriving DecidableEq, Repr

/-- Source `Default::default()` for `Rect`: all zeroes. -/
def zeroRect : Rect := ⟨0, 0, 0, 0⟩

/-- Source `Default::default()` for `EdgeSize`: all zeroes. -/
def zeroEdge : EdgeSize := ⟨0, 0, 0, 0⟩

/-- Source `Default::default()` for `Dimensions`: all zeroes. -/
def zeroDimensions : Dimensions := ⟨zeroRect, zeroEdge, zeroEdge, zeroEdge⟩

/-- Source `Rect::expanded_by` from `layout.rs`. -/
def Rect.expanded_by (r : Rect) (edge : EdgeSize) : Rect :=
  ⟨r.x - edge.left, r.y - edge.top, r.width + edge.left + edge.right, r.height + edge.top + edge.bottom⟩

/-- Source `Dimensions::padding_box` from `layout.rs`. -/
def Dimensions.padding_box (d : Dimensions) : Rect :=
  d.content.expanded_by d.padding

/-- Source `Dimensions::border_box` from `layout.rs`. -/
def Dimensions.border_box (d : Dimensions) : Rect :=
  d.padding_box.expanded_by d.border

/-- Source `Dimensions::margin_box` from `layout.rs`. -/
def Dimensions.margin_box (d : Dimensions) : Rect :=
  d.border_box.expanded_by d.margin

/-- Source `enum BoxType` from `layout.rs`.  The Rust variants borrow the
styled node; the embedding stores it by value. -/
inductive BoxType where
  | BlockNode (node : StyledNode)
  | InlineNode (node : StyledNode)
  | AnonymousBlock

/-- Source `struct LayoutBox` from `layout.rs`.  The `Rc<RefCell<Dimensions>>`
cell is embedded by threading `Dimensions` values functionally through
the layout pass. -/
inductive LayoutBox where
  | mk (dimensions : Dimensions) (box_type : BoxType) (children : List LayoutBox)

/-- The dimensions of a layout box. -/
def LayoutBox.dimensions : LayoutBox → Dimensions
  | .mk d _ _ => d

/-- The box type of a layout box. -/
def LayoutBox.box_type : LayoutBox → BoxType
  | .mk _ bt _ => bt

/-- The children of a layout box. -/
def LayoutBox.children : LayoutBox → List LayoutBox
  | .mk _ _ cs => cs

/-- Whether a layout box is an `AnonymousBlock`. -/
def LayoutBox.isAnon : LayoutBox → Bool
  | .mk _ .AnonymousBlock _ => true
  | _ => false

/-- Source `root.children.push(child)` on a layout box. -/
def LayoutBox.pushChild : LayoutBox → LayoutBox → LayoutBox
  | .mk d bt cs, child => .mk d bt (cs ++ [child])

/-- Source `root.get_inline_container().children.push(child)` from
`layout.rs`: `get_inline_container` returns the box itself for
`InlineNode`/`AnonymousBlock`; for `BlockNode` it returns the last
child if that child is already an `AnonymousBlock` and otherwise a
freshly appended `AnonymousBlock`; the inline child is pushed into the
returned container. -/
def LayoutBox.push_to_inline_container : LayoutBox → LayoutBox → LayoutBox
  | .mk d bt cs, child =>
    match bt with
    | .BlockNode _ =>
      match cs.getLast? with
      | some (.mk da .AnonymousBlock ca) =>
        .mk d bt (cs.dropLast ++ [.mk da .AnonymousBlock (ca ++ [child])])
      | _ => .mk d bt (cs ++ [.mk zeroDimensions .AnonymousBlock [child]])
    | _ => .mk d bt (cs ++ [child])

mutual

/-- The recursive body of `build_layout_tree` from `layout.rs`, for a
styled node whose display is already known not to be `none` (`isBlock`
records whether the `match style_node.display()` at the top of
`build_layout_tree` chose `BlockNode` or `InlineNode`). -/
def build_layout_box : StyledNode → Bool → LayoutBox
  | .mk node sv children, isBlock =>
    let style_node : StyledNode := .mk node sv children
    let root : LayoutBox :=
      .mk zeroDimensions (if isBlock then .BlockNode style_node else .InlineNode style_node) []
    build_layout_children root children

/-- The `for child in &style_node.children` loop of `build_layout_tree`:
a `Block`-display child is pushed directly, an `Inline`-display child is
pushed into the inline container, a `None`-display child is skipped. -/
def build_layout_children (root : LayoutBox) : List StyledNode → LayoutBox
  | [] => root
  | child :: rest =>
    match child.display with
    | .Block => build_layout_children (root.pushChild (build_layout_box child true)) rest
    | .Inline => build_layout_children (root.push_to_inline_container (build_layout_box child false)) rest
    | .None => build_layout_children root rest

end

/-- Source `build_layout_tree` from `layout.rs`.  The Rust function panics
when the root's display is `none` ("Root node has display: none.");
the embedding returns that fatal error through `Except`. -/
def build_layout_tree (style_node : StyledNode) : Except String LayoutBox :=
  match style_node.display with
  | .Block => .ok (build_layout_box style_node true)
  | .Inline => .ok (build_layout_box style_node false)
  | .None => .error "Root node has display: none."

/-! ## The width/position/height solve phase (`src/layout.rs`) -/

/-- Source `Keyword("auto".to_string())` from `calculate_block_width`. -/
def autoV : Value := .Keyword "auto"

/-- Source `Length(0.0, Px)` from `calculate_block_width`. -/
def zeroLength : Value := .Length 0 .Px

/-- Source `style.value("width").unwrap_or(auto)` from `calculate_block_width`. -/
def widthValue (style : StyledNode) : Value :=
  (style.value "width").getD autoV

/-- Source `style.lookup("margin-left", "margin", &zero)`. -/
def marginLeftRaw (style : StyledNode) : Value :=
  style.lookup "margin-left" "margin" zeroLength

/-- Source `style.lookup("margin-right", "margin", &zero)`. -/
def marginRightRaw (style : StyledNode) : Value :=
  style.lookup "margin-right" "margin" zeroLength

/-- Source `style.lookup("border-left-width", "border-width", &zero)`. -/
def borderLeftRaw (style : StyledNode) : Value :=
  style.lookup "border-left-width" "border-width" zeroLength

/-- Source `style.lookup("border-right-width", "border-width", &zero)`. -/
def borderRightRaw (style : StyledNode) : Value :=
  style.lookup "border-right-width" "border-width" zeroLength

/-- Source `style.lookup("padding-left", "padding", &zero)`. -/
def paddingLeftRaw (style : StyledNode) : Value :=
  style.lookup "padding-left" "padding" zeroLength

/-- Source `style.lookup("padding-right", "padding", &zero)`. -/
def paddingRightRaw (style : StyledNode) : Value :=
  style.lookup "padding-right" "padding" zeroLength

/-- The `total` sum of `calculate_block_width`: margins, borders,
paddings and width, each contributing its `to_px` (so any `auto`
contributes `0`). -/
def widthTotal (style : StyledNode) : ℚ :=
  (marginLeftRaw style).to_px + (marginRightRaw style).to_px +
  (borderLeftRaw style).to_px + (borderRightRaw style).to_px +
  (paddingLeftRaw style).to_px + (paddingRightRaw style).to_px +
  (widthValue style).to_px

/-- Source `margin_left` after the over-constrained clamp of
`calculate_block_width` (lines 139-146): when the width is not `auto`
and `total` exceeds the containing width, an `auto` margin-left is
forced to zero. -/
def clampedMarginLeft (style : StyledNode) (cbw : ℚ) : Value :=
  if widthValue style ≠ autoV ∧ widthTotal style > cbw ∧ marginLeftRaw style = autoV
  then zeroLength else marginLeftRaw style

/-- Source `margin_right` after the over-constrained clamp of
`calculate_block_width` (lines 139-146). -/
def clampedMarginRight (style : StyledNode) (cbw : ℚ) : Value :=
  if widthValue style ≠ autoV ∧ widthTotal style > cbw ∧ marginRightRaw style = autoV
  then zeroLength else marginRightRaw style

/-- Source `underflow` from `calculate_block_width`: the containing width
minus `total`. -/
def underflowQ (style : StyledNode) (cbw : ℚ) : ℚ :=
  cbw - widthTotal style

/-- Source `calculate_block_width` from `layout.rs`: resolves width and the
left/right margins by case on which of them are `auto`, then stores the
resolved pixel values into the box's dimensions. -/
def calculate_block_width (style : StyledNode) (d : Dimensions) (containing_block : Dimensions) : Dimensions :=
  let cbw := containing_block.content.width
  let width := widthValue style
  let margin_left := clampedMarginLeft style cbw
  let margin_right := clampedMarginRight style cbw
  let u := underflowQ style cbw
  let resolved : Value × Value × Value :=
    -- the `match (width == auto, margin_left == auto, margin_right == auto)`
    -- of lines 151-180, written as a chain of ifs on the same conditions:
    if width = autoV then
      -- the `(true, _, _)` arm
      let margin_left' := if margin_left = autoV then zeroLength else margin_left
      let margin_right' := if margin_right = autoV then zeroLength else margin_right
      if u ≥ 0 then (.Length u .Px, margin_left', margin_right')
      else (.Length 0 .Px, margin_left', .Length (margin_right'.to_px + u) .Px)
    else if margin_left = autoV then
      if margin_right = autoV then
        -- the `(false, true, true)` arm
        (width, .Length (u / 2) .Px, .Length (u / 2) .Px)
      else
        -- the `(false, true, false)` arm
        (width, .Length u .Px, margin_right)
    else if margin_right = autoV then
      -- the `(false, false, true)` arm
      (width, margin_left, .Length u .Px)
    else
      -- the `(false, false, false)` arm
      (width, margin_left, .Length (margin_right.to_px + u) .Px)
  { d with
    content.width := resolved.1.to_px,
    padding.left := (paddingLeftRaw style).to_px,
    padding.right := (paddingRightRaw style).to_px,
    border.left := (borderLeftRaw style).to_px,
    border.right := (borderRightRaw style).to_px,
    margin.left := resolved.2.1.to_px,
    margin.right := resolved.2.2.to_px }

/-- Source `calculate_block_position` from `layout.rs`: resolves the vertical
margin/border/padding edges (specific name → shorthand → zero) and sets
`content.x`/`content.y` from the containing block's content origin, its
accumulated content height (for `y`), and this box's own top/left
edges. -/
def calculate_block_position (style : StyledNode) (d : Dimensions) (containing_block : Dimensions) : Dimensions :=
  let margin_top := (style.lookup "margin-top" "margin" zeroLength).to_px
  let margin_bottom := (style.lookup "margin-bottom" "margin" zeroLength).to_px
  let border_top := (style.lookup "border-top-width" "border-width" zeroLength).to_px
  let border_bottom := (style.lookup "border-bottom-width" "border-width" zeroLength).to_px
  let padding_top := (style.lookup "padding-top" "padding" zeroLength).to_px
  let padding_bottom := (style.lookup "padding-bottom" "padding" zeroLength).to_px
  { d with
    margin.top := margin_top,
    margin.bottom := margin_bottom,
    border.top := border_top,
    border.bottom := border_bottom,
    padding.top := padding_top,
    padding.bottom := padding_bottom,
    content.x := containing_block.content.x + d.margin.left + d.border.left + d.padding.left,
    content.y := containing_block.content.height + containing_block.content.y +
      margin_top + border_top + padding_top }

/-- Source `calculate_block_height` from `layout.rs`: an explicit pixel
`height` property overwrites the accumulated content height; anything
else leaves it as accumulated. -/
def calculate_block_height (style : StyledNode) (d : Dimensions) : Dimensions :=
  match style.value "height" with
  | some (.Length h .Px) => { d with content.height := h }
  | _ => d

mutual

/-- Source `LayoutBox::layout` from `layout.rs`: only a `BlockNode` computes
anything (`layout_block`: width, then position, then children, then
height); `InlineNode` and `AnonymousBlock` are no-ops.  The source
mutates the box and the shared containing-block cell; the embedding
returns the laid-out box, and `layout_children` returns the updated
parent dimensions alongside the laid-out children. -/
def layout : LayoutBox → Dimensions → LayoutBox
  | .mk d (.BlockNode style) children, containing_block =>
    let d1 := calculate_block_width style d containing_block
    let d2 := calculate_block_position style d1 containing_block
    let childrenAndDims := layout_children children d2
    let d4 := calculate_block_height style childrenAndDims.2
    .mk d4 (.BlockNode style) childrenAndDims.1
  | box, _ => box

/-- Source `layout_block_children` from `layout.rs`: each child is laid out
against the parent's current dimensions (in document order), and after
each child completes, the child's margin-box height is added to the
parent's running content height. -/
def layout_children : List LayoutBox → Dimensions → (List LayoutBox × Dimensions)
  | [], d => ([], d)
  | child :: rest, d =>
    let laid_child := layout child d
    let d' := { d with content.height := d.content.height + laid_child.dimensions.margin_box.height }
    let restAndDims := layout_children rest d'
    (laid_child :: restAndDims.1, restAndDims.2)

end

/-- Source `layout_tree` from `layout.rs` (in the `native` crate's entry path):
zero the containing block's accumulated content height, build the box
tree and run the solve phase on the root. -/
def layout_tree (node : StyledNode) (containing_block : Dimensions) : Except String LayoutBox :=
  (build_layout_tree node).map
    (fun root => layout root { containing_block with content.height := 0 })

/-! ## Observations used by the theorems -/

/-- The three box kinds, for stating shapes of built layout trees. -/
inductive BoxKind where
  | block
  | inline
  | anon
deriving DecidableEq, Repr

/-- The kind of a layout box. -/
def LayoutBox.kind : LayoutBox → BoxKind
  | .mk _ (.BlockNode _) _ => .block
  | .mk _ (.InlineNode _) _ => .inline
  | .mk _ .AnonymousBlock _ => .anon

/-- No two adjacent boxes of a child list are both anonymous. -/
def noAdjAnon : List LayoutBox → Bool
  | a :: b :: rest => !(a.isAnon && b.isAnon) && noAdjAnon (b :: rest)
  | _ => true

mutual

/-- Recursively, no box's child list contains two adjacent anonymous
boxes. -/
def LayoutBox.wfAnon : LayoutBox → Bool
  | .mk _ _ cs => noAdjAnon cs && wfAnonList cs

/-- Source `LayoutBox.wfAnon` over a list of boxes. -/
def wfAnonList : List LayoutBox → Bool
  | [] => true
  | c :: cs => c.wfAnon && wfAnonList cs

end

/-- The sum of the margin-box heights of a list of layout boxes. -/
def marginHeightSum (cs : List LayoutBox) : ℚ :=
  (cs.map (fun c => c.dimensions.margin_box.height)).sum

/-- A bare tree shape: node identity and ordering with all payloads
erased, for stating that styling preserves the document tree's shape. -/
inductive TreeShape where
  | mk (children : List TreeShape)

mutual

/-- The shape of a DOM tree. -/
def Node.shape : Node → TreeShape
  | .mk cs _ => .mk (nodeListShape cs)

/-- Source `Node.shape` over a list. -/
def nodeListShape : List Node → List TreeShape
  | [] => []
  | c :: cs => c.shape :: nodeListShape cs

end

mutual

/-- The shape of a styled tree. -/
def StyledNode.shape : StyledNode → TreeShape
  | .mk _ _ cs => .mk (styledListShape cs)

/-- Source `StyledNode.shape` over a list. -/
def styledListShape : List StyledNode → List TreeShape
  | [] => []
  | c :: cs => c.shape :: styledListShape cs

end

mutual

/-- The number of nodes of a tree shape. -/
def TreeShape.count : TreeShape → Nat
  | .mk cs => 1 + shapeListCount cs

/-- Source `TreeShape.count` over a list. -/
def shapeListCount : List TreeShape → Nat
  | [] => 0
  | c :: cs => c.count + shapeListCount cs

end

mutual

/-- Every text node of a styled tree carries an empty property map. -/
def StyledNode.textNodesEmpty : StyledNode → Bool
  | .mk n sv cs =>
    (match n.node_type with
     | .Text _ => decide (sv = [])
     | .Element _ => true) && textNodesEmptyList cs

/-- Source `StyledNode.textNodesEmpty` over a list. -/
def textNodesEmptyList : List StyledNode → Bool
  | [] => true
  | c :: cs => c.textNodesEmpty && textNodesEmptyList cs

end

/-- The `classes` accessor as the spec words it ("the `class` attribute
split on whitespace into a set"): the (nonempty) whitespace-separated
tokens of the `class` attribute.  Stated for refinement comparison
against the code's `ElementData.classes`. -/
def classes_whitespace_spec (e : ElementData) : List String :=
  match attrGet e.attributes "class" with
  | some classlist =>
    ((classlist.data.splitOnP (fun c => c.isWhitespace)).map String.mk).filter (fun t => ¬ t = "")
  | none => []

/-! ## Concrete inputs for witnesses and counterexamples -/

/-- A dummy DOM node, for building styled nodes directly. -/
def textDummy : Node := .mk [] (.Text "")

/-- A styled node with `display: block`, extra properties and children. -/
def blockStyled (extra : PropertyMap) (children : List StyledNode) : StyledNode :=
  .mk textDummy (("display", Value.Keyword "block") :: extra) children

/-- A styled node with an empty property map: its display is absent and
therefore inline. -/
def inlineStyled : StyledNode := .mk textDummy [] []

/-- A styled node with `display: none`. -/
def noneStyled : StyledNode := .mk textDummy [("display", .Keyword "none")] []

/-- A block parent with children [block, inline, inline, block]. -/
def mixedParent : StyledNode :=
  blockStyled [] [blockStyled [] [], inlineStyled, inlineStyled, blockStyled [] []]

/-- Source `width: 400px; margin-left: auto; margin-right: auto`. -/
def widthCenterStyle : StyledNode :=
  .mk textDummy [("width", .Length 400 .Px), ("margin-left", .Keyword "auto"), ("margin-right", .Keyword "auto")] []

/-- Source `width: 150px; margin: 0px`. -/
def widthOverflowStyle : StyledNode :=
  .mk textDummy [("width", .Length 150 .Px), ("margin", .Length 0 .Px)] []

/-- Source `margin: 8px` with `width` unset (hence `auto`). -/
def widthAutoMarginStyle : StyledNode :=
  .mk textDummy [("margin", .Length 8 .Px)] []

/-- Source `width: 50%`. -/
def percentWidthStyle : StyledNode :=
  .mk textDummy [("width", .Percentage 50)] []

/-- A containing block of content width 800. -/
def cb800 : Dimensions := { zeroDimensions with content.width := 800 }

/-- A containing block of content width 100. -/
def cb100 : Dimensions := { zeroDimensions with content.width := 100 }

/-- The 800×600 viewport of the `native` crate's entry point. -/
def viewport800 : Dimensions :=
  { zeroDimensions with content.width := 800, content.height := 600 }

/-- A block parent with two block children of heights 50px and 30px and
no margins, borders or paddings. -/
def stackParent : StyledNode :=
  blockStyled [] [blockStyled [("height", .Length 50 .Px)] [], blockStyled [("height", .Length 30 .Px)] []]

/-- A `div` element with no attributes. -/
def divElem : ElementData := .mk "div" []

/-- The selector `div`. -/
def divSelector : Selector := .Simple (.mk (some "div") none [])

/-- Source `div { color: red; }` -/
def ruleColorRed : Rule := .mk [divSelector] [⟨"color", .Keyword "red"⟩]

/-- Source `div { color: green; }` -/
def ruleColorGreen : Rule := .mk [divSelector] [⟨"color", .Keyword "green"⟩]

/-- An element whose `class` attribute holds a tab-separated list. -/
def tabClassElem : ElementData := .mk "p" [("class", "a\tb")]

/-! # Theorems -/

/-! ### Property-map lemmas -/

theorem pmGet_insert_self (m : PropertyMap) (k : String) (v : Value) :
    pmGet (pmInsert m k v) k = some v := by
  simp [pmGet, pmInsert, List.find?]

theorem pmGet_insert_ne (m : PropertyMap) (k k' : String) (v : Value) (h : k' ≠ k) :
    pmGet (pmInsert m k' v) k = pmGet m k := by
  simp [pmGet, pmInsert, List.find?, h]

/-! ### C10: `to_px` and percentage widths -/

/-- C10: `Value::to_px` returns the numeric magnitude only for a pixel
`Length` and returns `0` for every other variant (keywords, percentages,
colors); consequently in `calculate_block_width` a percentage width
contributes `0` to the `total` used to compute the underflow and is
treated as a fixed width of `0` rather than resolved against the
containing block. -/
theorem to_px_length_only :
    (∀ f : ℚ, (Value.Length f .Px).to_px = f) ∧
    (∀ s : String, (Value.Keyword s).to_px = 0) ∧
    (∀ q : ℚ, (Value.Percentage q).to_px = 0) ∧
    (∀ c : Color, (Value.ColorValue c).to_px = 0) ∧
    (∀ (style : StyledNode) (p : ℚ), style.value "width" = some (.Percentage p) →
      widthTotal style =
        (marginLeftRaw style).to_px + (marginRightRaw style).to_px +
        (borderLeftRaw style).to_px + (borderRightRaw style).to_px +
        (paddingLeftRaw style).to_px + (paddingRightRaw style).to_px) ∧
    (∀ (style : StyledNode) (d containing_block : Dimensions) (p : ℚ),
      style.value "width" = some (.Percentage p) →
      (calculate_block_width style d containing_block).content.width = 0) := by
  refine ⟨fun f => rfl, fun s => rfl, fun q => rfl, fun c => rfl, ?_, ?_⟩
  · intro style p h
    simp [widthTotal, widthValue, h, Value.to_px]
  · intro style d cb p h
    have hw : widthValue style = .Percentage p := by simp [widthValue, h]
    by_cases hml : clampedMarginLeft style cb.content.width = autoV <;>
    by_cases hmr : clampedMarginRight style cb.content.width = autoV <;>
    simp only [autoV] at hml hmr <;>
    simp [calculate_block_width, hml, hmr, hw, autoV, Value.to_px]

/-- Witness for `to_px_length_only` at `width: 50%` and containing width
800. -/
theorem to_px_length_only_witness :
    (calculate_block_width percentWidthStyle zeroDimensions cb800).content.width = 0 :=
  to_px_length_only.2.2.2.2.2 percentWidthStyle zeroDimensions cb800 50 rfl

/-! ### C2: `calculate_block_width` with a fixed width -/

/-- C2: when the `width` property is not `auto`, `calculate_block_width`
resolves the remaining unknowns by case on which of the margins (after
the over-constrained clamp) are `auto`: neither auto → margin-right
absorbs the underflow; exactly one auto → that margin is set to the
underflow; both auto → each margin takes half the underflow (centering).
The width always stays at its given pixel value. -/
theorem block_width_fixed_width_cases
    (style : StyledNode) (d containing_block : Dimensions)
    (hw : ¬ widthValue style = autoV) :
    let cbw := containing_block.content.width
    let ml := clampedMarginLeft style cbw
    let mr := clampedMarginRight style cbw
    let u := underflowQ style cbw
    let r := calculate_block_width style d containing_block
    ((¬ ml = autoV ∧ ¬ mr = autoV) →
      r.margin.right = mr.to_px + u ∧ r.margin.left = ml.to_px ∧
      r.content.width = (widthValue style).to_px) ∧
    ((¬ ml = autoV ∧ mr = autoV) →
      r.margin.right = u ∧ r.margin.left = ml.to_px ∧
      r.content.width = (widthValue style).to_px) ∧
    ((ml = autoV ∧ ¬ mr = autoV) →
      r.margin.left = u ∧ r.margin.right = mr.to_px ∧
      r.content.width = (widthValue style).to_px) ∧
    ((ml = autoV ∧ mr = autoV) →
      r.margin.left = u / 2 ∧ r.margin.right = u / 2 ∧
      r.content.width = (widthValue style).to_px) := by
  refine ⟨fun h => ?_, fun h => ?_, fun h => ?_, fun h => ?_⟩ <;>
  · obtain ⟨hml, hmr⟩ := h
    simp only [calculate_block_width, hw, hml, hmr, if_true, if_false, ite_true, ite_false,
      if_neg, if_pos] at *
    simp [calculate_block_width, hw, hml, hmr, Value.to_px]

section ConcreteWidthEvaluation

attribute [local simp] calculate_block_width clampedMarginLeft clampedMarginRight underflowQ
  widthTotal widthValue marginLeftRaw marginRightRaw borderLeftRaw borderRightRaw
  paddingLeftRaw paddingRightRaw StyledNode.lookup StyledNode.value StyledNode.specified_values
  pmGet pmInsert List.find? autoV zeroLength zeroDimensions zeroRect zeroEdge Value.to_px
  widthCenterStyle widthOverflowStyle widthAutoMarginStyle percentWidthStyle cb800 cb100
  textDummy

/-- Witness for `block_width_fixed_width_cases`: the centering case
(containing width 800, `width: 400px`, both margins `auto` → each margin
200) and the overflow case (containing width 100, `width: 150px`, fixed
margins 0 → margin-right = underflow = −50, width stays 150). -/
theorem block_width_fixed_width_cases_witness :
    (calculate_block_width widthCenterStyle zeroDimensions cb800).margin.left = 200 ∧
    (calculate_block_width widthCenterStyle zeroDimensions cb800).margin.right = 200 ∧
    (calculate_block_width widthOverflowStyle zeroDimensions cb100).margin.right = -50 ∧
    underflowQ widthOverflowStyle cb100.content.width = -50 ∧
    (calculate_block_width widthOverflowStyle zeroDimensions cb100).content.width = 150 := by
  have h1 := block_width_fixed_width_cases widthCenterStyle zeroDimensions cb800 (by simp)
  have h2 := block_width_fixed_width_cases widthOverflowStyle zeroDimensions cb100 (by simp)
  have h1both := h1.2.2.2 ⟨by simp <;> norm_num, by simp <;> norm_num⟩
  have h2none := h2.1 ⟨by simp <;> norm_num, by simp <;> norm_num⟩
  refine ⟨h1both.1.trans (by simp <;> norm_num), h1both.2.1.trans (by simp <;> norm_num),
    h2none.1.trans (by simp <;> norm_num), by simp <;> norm_num,
    h2none.2.2.trans (by simp <;> norm_num)⟩

end ConcreteWidthEvaluation

/-! ### C3: `calculate_block_width` with width `auto` -/

/-- C3: when the `width` property is `auto` (also when unset), every
`auto` margin becomes `0`; then if the underflow is nonnegative the
content width is set to the underflow, otherwise the content width is
set to `0` and margin-right absorbs the (negative) underflow. -/
theorem block_width_auto_width
    (style : StyledNode) (d containing_block : Dimensions)
    (hw : widthValue style = autoV) :
    let u := underflowQ style containing_block.content.width
    let mlz : ℚ := if marginLeftRaw style = autoV then 0 else (marginLeftRaw style).to_px
    let mrz : ℚ := if marginRightRaw style = autoV then 0 else (marginRightRaw style).to_px
    let r := calculate_block_width style d containing_block
    r.margin.left = mlz ∧
    (u ≥ 0 → r.content.width = u ∧ r.margin.right = mrz) ∧
    (¬ u ≥ 0 → r.content.width = 0 ∧ r.margin.right = mrz + u) := by
  have hcl : clampedMarginLeft style containing_block.content.width = marginLeftRaw style := by
    simp [clampedMarginLeft, hw]
  have hcr : clampedMarginRight style containing_block.content.width = marginRightRaw style := by
    simp [clampedMarginRight, hw]
  by_cases hu : underflowQ style containing_block.content.width ≥ 0 <;>
  by_cases hml : marginLeftRaw style = autoV <;>
  by_cases hmr : marginRightRaw style = autoV <;>
  simp [calculate_block_width, hw, hcl, hcr, hu, hml, hmr, Value.to_px, zeroLength]

section ConcreteWidthEvaluation2

attribute [local simp] calculate_block_width clampedMarginLeft clampedMarginRight underflowQ
  widthTotal widthValue marginLeftRaw marginRightRaw borderLeftRaw borderRightRaw
  paddingLeftRaw paddingRightRaw StyledNode.lookup StyledNode.value StyledNode.specified_values
  pmGet pmInsert List.find? autoV zeroLength zeroDimensions zeroRect zeroEdge Value.to_px
  widthAutoMarginStyle cb800 textDummy

/-- Witness for `block_width_auto_width`: containing width 800,
`width` unset (auto), `margin: 8px`, no border or padding → resolved
content width 784. -/
theorem block_width_auto_width_witness :
    (calculate_block_width widthAutoMarginStyle zeroDimensions cb800).content.width = 784 := by
  have h := block_width_auto_width widthAutoMarginStyle zeroDimensions cb800 (by simp)
  exact (h.2.1 (by simp <;> norm_num)).1.trans (by simp <;> norm_num)

end ConcreteWidthEvaluation2

/-! ### Cascade lemmas -/

theorem specLe_refl (s : Specificity) : specLe s s = true := by
  simp [specLe]

theorem pmGet_applyDecl_ne (P m : PropertyMap) (d : Declaration) (p : String)
    (h : ¬ d.name = p) : pmGet (applyDecl P m d) p = pmGet m p := by
  unfold applyDecl
  by_cases hv : d.value = Value.Keyword "inherit" <;> simp only [hv, if_true, if_false, if_neg, if_pos]
  · cases hp : pmGet P d.name <;> simp [hp, pmGet_insert_ne _ _ _ _ h]
  · simp [hv, pmGet_insert_ne _ _ _ _ h]

theorem pmGet_foldDecls_not_mentioned (P : PropertyMap) (ds : List Declaration) (p : String)
    (h : ∀ d ∈ ds, ¬ d.name = p) : ∀ m, pmGet (foldDecls P m ds) p = pmGet m p := by
  induction ds with
  | nil => intro m; rfl
  | cons d ds ih =>
    intro m
    have hd : ¬ d.name = p := h d (by simp)
    have hds : ∀ d ∈ ds, ¬ d.name = p := fun d hmem => h d (by simp [hmem])
    calc pmGet (foldDecls P (applyDecl P m d) ds) p
        = pmGet (applyDecl P m d) p := ih hds _
      _ = pmGet m p := pmGet_applyDecl_ne P m d p hd

theorem sortRules_singleton (x : MatchedRule) : sortRules [x] = [x] := rfl

theorem foldDecls_append (P m : PropertyMap) (ds es : List Declaration) :
    foldDecls P m (ds ++ es) = foldDecls P (foldDecls P m ds) es := by
  simp [foldDecls, List.foldl_append]

theorem applyDecl_not_inherit (P m : PropertyMap) (d : Declaration)
    (h : ¬ d.value = Value.Keyword "inherit") :
    applyDecl P m d = pmInsert m d.name d.value := by
  simp [applyDecl, h]

theorem applyDecl_inherit_some (P m : PropertyMap) (name : String) (x : Value)
    (h : pmGet P name = some x) :
    applyDecl P m ⟨name, .Keyword "inherit"⟩ = pmInsert m name x := by
  simp [applyDecl, h]

theorem applyDecl_inherit_none (P m : PropertyMap) (name : String)
    (h : pmGet P name = none) :
    applyDecl P m ⟨name, .Keyword "inherit"⟩ = m := by
  simp [applyDecl, h]

/-! ### C5: stable cascade ordering, later rule wins on ties -/

/-- C5: matched rules are stable-sorted ascending by the specificity of
their matching selector and their declarations applied in that order
with overwrite; hence for a stylesheet of two rules of equal
specificity both matching the element, the value of the later rule's
(last, non-`inherit`) declaration for a property determines the final
value of that property. -/
theorem cascade_last_rule_wins
    (elem : ElementData) (r1 r2 : Rule) (P : PropertyMap)
    (s1 s2 : Specificity) (p : String) (v : Value)
    (ds1 ds2 : List Declaration)
    (h1 : match_rule elem r1 = some (s1, r1))
    (h2 : match_rule elem r2 = some (s2, r2))
    (hs : s1 = s2)
    (hdecl : r2.declarations = ds1 ++ ⟨p, v⟩ :: ds2)
    (hv : ¬ v = Value.Keyword "inherit")
    (hlast : ∀ d ∈ ds2, ¬ d.name = p) :
    pmGet (specified_values elem ⟨[r1, r2]⟩ P) p = some v := by
  unfold specified_values
  have hmatch : matching_rules elem ⟨[r1, r2]⟩ = [(s1, r1), (s2, r2)] := by
    simp [matching_rules, List.filterMap, h1, h2]
  have hsort : sortRules (matching_rules elem ⟨[r1, r2]⟩) = [(s1, r1), (s2, r2)] := by
    rw [hmatch]
    simp [sortRules, insertSorted, hs, specLe_refl]
  rw [hsort]
  simp only [List.foldl_cons, List.foldl_nil]
  rw [hdecl, show (⟨p, v⟩ :: ds2 : List Declaration) = [⟨p, v⟩] ++ ds2 from rfl,
    ← List.append_assoc, foldDecls_append]
  rw [pmGet_foldDecls_not_mentioned P ds2 p hlast]
  rw [foldDecls_append]
  show pmGet (foldDecls P _ [⟨p, v⟩]) p = some v
  rw [show ∀ m, foldDecls P m [⟨p, v⟩] = applyDecl P m ⟨p, v⟩ from fun m => rfl,
    applyDecl_not_inherit P _ ⟨p, v⟩ hv]
  exact pmGet_insert_self _ _ _

/-- Witness for `cascade_last_rule_wins`: two `div { color: … }` rules
of equal specificity; the later (green) one wins. -/
theorem cascade_last_rule_wins_witness :
    pmGet (specified_values divElem ⟨[ruleColorRed, ruleColorGreen]⟩ []) "color" =
      some (Value.Keyword "green") :=
  cascade_last_rule_wins divElem ruleColorRed ruleColorGreen [] (0, 0, 1) (0, 0, 1)
    "color" (Value.Keyword "green") [] [] rfl rfl rfl rfl (by simp) (by simp)

/-! ### C6: explicit `inherit` declarations -/

/-- C6: an applied declaration whose value is the literal keyword
`inherit` stores the parent's value for the same property name (any
property name); when the parent has no value for it, the declaration is
dropped and the resulting map is exactly the one produced without that
declaration. -/
theorem explicit_inherit_copies_parent
    (elem : ElementData) (ss : List Selector) (ds : List Declaration)
    (X : String) (P : PropertyMap) (sel : Selector)
    (hm : ss.find? (fun s => selector_matches elem s) = some sel) :
    (∀ x : Value, pmGet P X = some x →
      pmGet (specified_values elem ⟨[⟨ss, ds ++ [⟨X, .Keyword "inherit"⟩]⟩]⟩ P) X = some x) ∧
    (pmGet P X = none →
      specified_values elem ⟨[⟨ss, ds ++ [⟨X, .Keyword "inherit"⟩]⟩]⟩ P =
      specified_values elem ⟨[⟨ss, ds⟩]⟩ P) := by
  have hmatch : ∀ (decls : List Declaration),
      matching_rules elem ⟨[⟨ss, decls⟩]⟩ = [(sel.specificity, ⟨ss, decls⟩)] := by
    intro decls
    simp [matching_rules, List.filterMap, match_rule, hm]
  constructor
  · intro x hx
    unfold specified_values
    rw [hmatch]
    simp only [sortRules_singleton, List.foldl_cons, List.foldl_nil]
    rw [foldDecls_append,
      show ∀ m, foldDecls P m [⟨X, .Keyword "inherit"⟩] = applyDecl P m ⟨X, .Keyword "inherit"⟩
        from fun m => rfl,
      applyDecl_inherit_some P _ X x hx]
    exact pmGet_insert_self _ _ _
  · intro hx
    unfold specified_values
    rw [hmatch, hmatch]
    simp only [sortRules_singleton, List.foldl_cons, List.foldl_nil]
    rw [foldDecls_append,
      show ∀ m, foldDecls P m [⟨X, .Keyword "inherit"⟩] = applyDecl P m ⟨X, .Keyword "inherit"⟩
        from fun m => rfl,
      applyDecl_inherit_none P _ X hx]

/-- Witness for `explicit_inherit_copies_parent`: `div { font-style:
inherit; }` yields the parent's `font-style: italic`, and with a parent
lacking the property the resolved map is the one of the empty rule. -/
theorem explicit_inherit_copies_parent_witness :
    pmGet (specified_values divElem ⟨[⟨[divSelector], [] ++ [⟨"font-style", .Keyword "inherit"⟩]⟩]⟩
      [("font-style", Value.Keyword "italic")]) "font-style" = some (Value.Keyword "italic") ∧
    specified_values divElem ⟨[⟨[divSelector], [] ++ [⟨"font-style", .Keyword "inherit"⟩]⟩]⟩ [] =
      specified_values divElem ⟨[⟨[divSelector], []⟩]⟩ [] := by
  have h1 := explicit_inherit_copies_parent divElem [divSelector] []
    "font-style" [("font-style", Value.Keyword "italic")] divSelector rfl
  have h2 := explicit_inherit_copies_parent divElem [divSelector] []
    "font-style" [] divSelector rfl
  exact ⟨h1.1 (Value.Keyword "italic") rfl, h2.2 rfl⟩

/-! ### C8: the `classes` and `id` accessors -/

/-- C8 counterexample: the code splits the `class` attribute on the
space character only, not on whitespace: for the tab-separated class
attribute `"a\tb"`, splitting on whitespace yields the token `"a"`,
but the code's accessor yields the single token `"a\tb"` and no token
`"a"`, so the returned set is not the set of whitespace-separated
tokens. -/
theorem classes_not_whitespace_split :
    "a" ∈ classes_whitespace_spec tabClassElem ∧
    ¬ "a" ∈ ElementData.classes tabClassElem ∧
    ElementData.classes tabClassElem = ["a\tb"] := by decide

/-- C8 amended: without mutating the element, the `classes` accessor
returns the tokens of the `class` attribute split on the space
character `' '` only (consecutive spaces produce empty tokens; other
whitespace characters are not separators), and the empty collection
when the attribute is absent; the `id` accessor returns the `id`
attribute's value when present.  Joining the returned tokens with
single spaces reproduces the attribute string exactly. -/
theorem classes_id_accessors :
    (∀ (e : ElementData) (cl : String), attrGet e.attributes "class" = some cl →
      e.classes = strSplit ' ' cl ∧
      [' '].intercalate (e.classes.map String.data) = cl.data) ∧
    (∀ e : ElementData, attrGet e.attributes "class" = none → e.classes = []) ∧
    (∀ e : ElementData, e.id = attrGet e.attributes "id") ∧
    (ElementData.mk "p" [("class", "btn btn-primary")]).classes = ["btn", "btn-primary"] ∧
    (ElementData.mk "p" [("class", "a  b")]).classes = ["a", "", "b"] := by
  have hmapdata : ∀ L : List (List Char), (L.map String.mk).map String.data = L := by
    intro L
    induction L with
    | nil => rfl
    | cons a t ih => simpa using ih
  refine ⟨?_, ?_, fun e => rfl, by decide, by decide⟩
  · intro e cl h
    refine ⟨by simp [ElementData.classes, h], ?_⟩
    simp only [ElementData.classes, h, strSplit, hmapdata]
    exact List.intercalate_splitOn cl.data ' '
  · intro e h
    simp [ElementData.classes, h]

/-- Witness for `classes_id_accessors` at a present and an absent
`class` attribute. -/
theorem classes_id_accessors_witness :
    (ElementData.mk "p" [("class", "btn btn-primary")]).classes = strSplit ' ' "btn btn-primary" ∧
    [' '].intercalate
      ((ElementData.mk "p" [("class", "btn btn-primary")]).classes.map String.data) =
      "btn btn-primary".data ∧
    (ElementData.mk "div" []).classes = [] := by
  have h1 := classes_id_accessors.1 (ElementData.mk "p" [("class", "btn btn-primary")])
    "btn btn-primary" rfl
  have h2 := classes_id_accessors.2.1 (ElementData.mk "div" []) rfl
  exact ⟨h1.1, h1.2, h2⟩

/-! ### C9: `display: none` handling -/

/-- C9: a root styled node whose display resolves to `none` makes
`build_layout_tree` fail fast with the distinguishable fatal error
message "Root node has display: none." (a panic in the Rust code,
embedded as `Except.error`) rather than returning a layout tree, while
a non-root child whose display is `none` is omitted — together with its
entire subtree — from the built children, and a non-`none` root always
yields a layout tree. -/
theorem display_none_fatal_and_pruning :
    (∀ sn : StyledNode, sn.display = Display.None →
      build_layout_tree sn = .error "Root node has display: none.") ∧
    (∀ sn : StyledNode, ¬ sn.display = Display.None →
      ∃ b : LayoutBox, build_layout_tree sn = .ok b) ∧
    (∀ (acc : LayoutBox) (child : StyledNode) (rest : List StyledNode),
      child.display = Display.None →
      build_layout_children acc (child :: rest) = build_layout_children acc rest) := by
  refine ⟨?_, ?_, ?_⟩
  · intro sn h
    simp [build_layout_tree, h]
  · intro sn h
    cases hd : sn.display with
    | Block => exact ⟨build_layout_box sn true, by simp [build_layout_tree, hd]⟩
    | Inline => exact ⟨build_layout_box sn false, by simp [build_layout_tree, hd]⟩
    | None => exact absurd hd h
  · intro acc child rest h
    simp only [build_layout_children, h]

/-- Witness for `display_none_fatal_and_pruning` at a concrete
`display: none` node. -/
theorem display_none_fatal_and_pruning_witness :
    build_layout_tree noneStyled = .error "Root node has display: none." ∧
    build_layout_children (LayoutBox.mk zeroDimensions (.BlockNode mixedParent) []) [noneStyled] =
      build_layout_children (LayoutBox.mk zeroDimensions (.BlockNode mixedParent) []) [] ∧
    ∃ b : LayoutBox, build_layout_tree mixedParent = .ok b := by
  refine ⟨display_none_fatal_and_pruning.1 noneStyled rfl,
    display_none_fatal_and_pruning.2.2 _ noneStyled [] rfl,
    display_none_fatal_and_pruning.2.1 mixedParent (by decide)⟩

/-! ### C1 lemmas: box types and the anonymous-box invariant -/

theorem box_type_pushChild (b c : LayoutBox) : (b.pushChild c).box_type = b.box_type := by
  cases b
  rfl

theorem box_type_push_to_inline_container (b c : LayoutBox) :
    (b.push_to_inline_container c).box_type = b.box_type := by
  cases b with
  | mk d bt cs =>
    cases bt with
    | BlockNode sn =>
      simp only [LayoutBox.push_to_inline_container]
      split <;> rfl
    | InlineNode sn => rfl
    | AnonymousBlock => rfl

theorem box_type_build_layout_children (cs : List StyledNode) :
    ∀ acc : LayoutBox, (build_layout_children acc cs).box_type = acc.box_type := by
  induction cs with
  | nil => intro acc; rfl
  | cons child rest ih =>
    intro acc
    cases hd : child.display <;> simp only [build_layout_children, hd]
    · rw [ih, box_type_pushChild]
    · rw [ih, box_type_push_to_inline_container]
    · exact ih acc

theorem isAnon_eq_box_type (b : LayoutBox) :
    b.isAnon = (match b.box_type with | .AnonymousBlock => true | _ => false) := by
  cases b with
  | mk d bt cs => cases bt <;> rfl

theorem isAnon_build_layout_box (sn : StyledNode) (flag : Bool) :
    (build_layout_box sn flag).isAnon = false := by
  cases sn with
  | mk nd sv cs =>
    rw [isAnon_eq_box_type]
    simp only [build_layout_box]
    rw [box_type_build_layout_children]
    cases flag <;> rfl

theorem wfAnon_mk (d : Dimensions) (bt : BoxType) (cs : List LayoutBox) :
    (LayoutBox.mk d bt cs).wfAnon = (noAdjAnon cs && wfAnonList cs) := by
  simp [LayoutBox.wfAnon]

theorem wfAnonList_append (xs ys : List LayoutBox) :
    wfAnonList (xs ++ ys) = (wfAnonList xs && wfAnonList ys) := by
  induction xs with
  | nil => simp [wfAnonList]
  | cons x xs ih => simp [wfAnonList, ih, Bool.and_assoc]

theorem noAdjAnon_append_singleton (xs : List LayoutBox) (b : LayoutBox) :
    noAdjAnon (xs ++ [b]) =
      (noAdjAnon xs && (match xs.getLast? with
        | some a => !(a.isAnon && b.isAnon)
        | none => true)) := by
  induction xs with
  | nil => simp [noAdjAnon]
  | cons x xs ih =>
    cases xs with
    | nil => simp [noAdjAnon]
    | cons y ys =>
      simp only [List.cons_append] at ih ⊢
      rw [noAdjAnon, ih, List.getLast?_cons_cons, noAdjAnon, Bool.and_assoc]

theorem wfAnon_pushChild (b c : LayoutBox) (hb : b.wfAnon = true) (hc : c.wfAnon = true)
    (hna : c.isAnon = false) : (b.pushChild c).wfAnon = true := by
  cases b with
  | mk d bt cs =>
    rw [wfAnon_mk] at hb
    simp only [LayoutBox.pushChild, wfAnon_mk, noAdjAnon_append_singleton, wfAnonList_append]
    simp only [Bool.and_eq_true] at hb
    simp [hb.1, hb.2, hc, hna, wfAnonList]
    split <;> simp [hna]

theorem wfAnonList_singleton (c : LayoutBox) : wfAnonList [c] = c.wfAnon := by
  simp [wfAnonList]

theorem noAdjAnon_append_nonanon (xs : List LayoutBox) (c : LayoutBox) (hna : c.isAnon = false)
    (h : noAdjAnon xs = true) : noAdjAnon (xs ++ [c]) = true := by
  rw [noAdjAnon_append_singleton, h]
  cases xs.getLast? with
  | none => rfl
  | some a => simp [hna]

theorem wfAnon_push_to_inline_container (b c : LayoutBox) (hb : b.wfAnon = true)
    (hc : c.wfAnon = true) (hna : c.isAnon = false) :
    (b.push_to_inline_container c).wfAnon = true := by
  cases b with
  | mk d bt cs =>
    rw [wfAnon_mk, Bool.and_eq_true] at hb
    obtain ⟨hadj, hlist⟩ := hb
    have hdefault : (LayoutBox.mk d bt (cs ++ [c])).wfAnon = true := by
      rw [wfAnon_mk, noAdjAnon_append_nonanon cs c hna hadj, wfAnonList_append,
        wfAnonList_singleton, hlist, hc]
      rfl
    cases bt with
    | InlineNode sn => exact hdefault
    | AnonymousBlock => exact hdefault
    | BlockNode sn =>
      simp only [LayoutBox.push_to_inline_container]
      cases hl : cs.getLast? with
      | none =>
        rw [wfAnon_mk, Bool.and_eq_true]
        constructor
        · rw [noAdjAnon_append_singleton, hadj, hl]
          rfl
        · rw [wfAnonList_append, hlist, wfAnonList_singleton, wfAnon_mk]
          simp [noAdjAnon, wfAnonList, hc]
      | some last =>
        cases last with
        | mk da bta ca =>
          cases bta with
          | AnonymousBlock =>
            -- the last child is already anonymous: the inline child is
            -- appended into its children
            have hcs : cs.dropLast ++ [LayoutBox.mk da .AnonymousBlock ca] = cs :=
              List.dropLast_append_getLast? _ (by simp [hl])
            rw [← hcs] at hadj hlist
            rw [noAdjAnon_append_singleton, Bool.and_eq_true] at hadj
            obtain ⟨hdrop, hedge⟩ := hadj
            rw [wfAnonList_append, wfAnonList_singleton, Bool.and_eq_true] at hlist
            obtain ⟨hdroplist, hanonwf⟩ := hlist
            rw [wfAnon_mk, Bool.and_eq_true] at hanonwf
            obtain ⟨hca, hcalist⟩ := hanonwf
            rw [wfAnon_mk, Bool.and_eq_true]
            constructor
            · rw [noAdjAnon_append_singleton, hdrop]
              revert hedge
              cases cs.dropLast.getLast? with
              | none => intro _; rfl
              | some z =>
                intro hedge
                simpa [LayoutBox.isAnon] using hedge
            · rw [wfAnonList_append, hdroplist, wfAnonList_singleton, wfAnon_mk,
                noAdjAnon_append_nonanon ca c hna hca, wfAnonList_append, hcalist,
                wfAnonList_singleton, hc]
              rfl
          | BlockNode sn2 =>
            rw [wfAnon_mk, Bool.and_eq_true]
            constructor
            · rw [noAdjAnon_append_singleton, hadj, hl]
              simp [LayoutBox.isAnon]
            · rw [wfAnonList_append, hlist, wfAnonList_singleton, wfAnon_mk]
              simp [noAdjAnon, wfAnonList, hc]
          | InlineNode sn2 =>
            rw [wfAnon_mk, Bool.and_eq_true]
            constructor
            · rw [noAdjAnon_append_singleton, hadj, hl]
              simp [LayoutBox.isAnon]
            · rw [wfAnonList_append, hlist, wfAnonList_singleton, wfAnon_mk]
              simp [noAdjAnon, wfAnonList, hc]

theorem wfAnon_build_layout_children_aux : ∀ (n : Nat) (cs : List StyledNode) (acc : LayoutBox),
    sizeOf cs ≤ n → acc.wfAnon = true → (build_layout_children acc cs).wfAnon = true := by
  intro n
  induction n with
  | zero =>
    intro cs acc hsz hacc
    cases cs with
    | nil => simpa [build_layout_children] using hacc
    | cons child rest =>
      exfalso
      simp only [List.cons.sizeOf_spec] at hsz
      omega
  | succ n ih =>
    intro cs acc hsz hacc
    cases cs with
    | nil => simpa [build_layout_children] using hacc
    | cons child rest =>
      obtain ⟨nd, sv, ccs⟩ := child
      have hszc : 1 + (1 + sizeOf nd + sizeOf sv + sizeOf ccs) + sizeOf rest ≤ n + 1 := by
        simpa [List.cons.sizeOf_spec, StyledNode.mk.sizeOf_spec] using hsz
      have hccs : sizeOf ccs ≤ n := by omega
      have hrest : sizeOf rest ≤ n := by omega
      have hchild : ∀ flag : Bool, (build_layout_box (StyledNode.mk nd sv ccs) flag).wfAnon = true := by
        intro flag
        simp only [build_layout_box]
        exact ih ccs _ hccs (by rw [wfAnon_mk]; rfl)
      cases hd : (StyledNode.mk nd sv ccs).display with
      | Block =>
        simp only [build_layout_children, hd]
        exact ih rest _ hrest
          (wfAnon_pushChild acc _ hacc (hchild true) (isAnon_build_layout_box _ true))
      | Inline =>
        simp only [build_layout_children, hd]
        exact ih rest _ hrest
          (wfAnon_push_to_inline_container acc _ hacc (hchild false)
            (isAnon_build_layout_box _ false))
      | None =>
        simp only [build_layout_children, hd]
        exact ih rest acc hrest hacc

theorem wfAnon_build_layout_box (sn : StyledNode) (flag : Bool) :
    (build_layout_box sn flag).wfAnon = true := by
  cases sn with
  | mk nd sv cs =>
    simp only [build_layout_box]
    exact wfAnon_build_layout_children_aux (sizeOf cs) cs _ le_rfl (by rw [wfAnon_mk]; rfl)

/-! ### C1: anonymous-box grouping -/

/-- C1 counterexample: a block parent with children
[block, inline, inline, block] produces **three** top-level children in
the layout tree (Block, Anonymous, Block), not the claimed "exactly
two". -/
theorem anonymous_box_grouping_not_two :
    (build_layout_tree mixedParent).map (fun b => b.children.length) = .ok 3 ∧
    ¬ (build_layout_tree mixedParent).map (fun b => b.children.length) = .ok 2 := by
  refine ⟨rfl, fun h => ?_⟩
  rw [show (build_layout_tree mixedParent).map (fun b => b.children.length) = Except.ok 3
    from rfl] at h
  simp at h

/-- C1 (amended): a block parent with children
[block, inline, inline, block] produces exactly **three** top-level
children — a Block box, one Anonymous box wrapping both inline
children, and a second Block box — and, for every styled node, the
layout tree built by `build_layout_tree` never contains two adjacent
anonymous boxes in any box's child list (each inline child goes into
the trailing Anonymous container, which is created only when the last
child is not already Anonymous). -/
theorem anonymous_box_grouping :
    ((build_layout_tree mixedParent).map (fun b => b.children.map LayoutBox.kind) =
      .ok [BoxKind.block, BoxKind.anon, BoxKind.block]) ∧
    ((build_layout_tree mixedParent).map
        (fun b => b.children.map (fun c => c.children.map LayoutBox.kind)) =
      .ok [[], [BoxKind.inline, BoxKind.inline], []]) ∧
    (∀ (sn : StyledNode) (flag : Bool), (build_layout_box sn flag).wfAnon = true) ∧
    (∀ (sn : StyledNode) (b : LayoutBox), build_layout_tree sn = .ok b → b.wfAnon = true) := by
  refine ⟨rfl, rfl, wfAnon_build_layout_box, ?_⟩
  intro sn b h
  cases hd : sn.display <;> simp only [build_layout_tree, hd] at h
  · cases h
    exact wfAnon_build_layout_box sn true
  · cases h
    exact wfAnon_build_layout_box sn false
  · exact Except.noConfusion h

/-- Witness for `anonymous_box_grouping` at the mixed parent. -/
theorem anonymous_box_grouping_witness :
    build_layout_tree mixedParent = .ok (build_layout_box mixedParent true) ∧
    (build_layout_box mixedParent true).wfAnon = true :=
  ⟨rfl, anonymous_box_grouping.2.2.2 mixedParent (build_layout_box mixedParent true) rfl⟩


/-! ### C4: block positioning and sibling stacking -/

theorem layout_children_accumulates (cs : List LayoutBox) :
    ∀ d : Dimensions,
      (layout_children cs d).2.content.height =
        d.content.height + marginHeightSum (layout_children cs d).1 ∧
      (layout_children cs d).1.length = cs.length := by
  induction cs with
  | nil => intro d; simp [layout_children, marginHeightSum]
  | cons c cs ih =>
    intro d
    simp only [layout_children]
    have h := ih { d with content.height := d.content.height + (layout c d).dimensions.margin_box.height }
    refine ⟨?_, by simpa using h.2⟩
    rw [h.1]
    simp [marginHeightSum]
    ring

section ConcreteLayoutEvaluation

attribute [local simp] layout_tree layout layout_children build_layout_tree build_layout_box
  build_layout_children LayoutBox.pushChild LayoutBox.push_to_inline_container
  LayoutBox.dimensions LayoutBox.children LayoutBox.box_type StyledNode.display
  StyledNode.children StyledNode.specified_values StyledNode.lookup StyledNode.value
  calculate_block_width calculate_block_position calculate_block_height
  clampedMarginLeft clampedMarginRight underflowQ widthTotal widthValue
  marginLeftRaw marginRightRaw borderLeftRaw borderRightRaw paddingLeftRaw paddingRightRaw
  Dimensions.margin_box Dimensions.border_box Dimensions.padding_box Rect.expanded_by
  pmGet pmInsert List.find? autoV zeroLength zeroDimensions zeroRect zeroEdge Value.to_px
  stackParent blockStyled viewport800 textDummy Except.map

theorem stack_example_eval :
    (layout_tree stackParent viewport800).map (fun b =>
      (b.dimensions.content.y, b.dimensions.content.height,
        b.children.map (fun c => c.dimensions.content.y))) = .ok (0, 80, [0, 50]) := by
  simp <;> norm_num

end ConcreteLayoutEvaluation

/-- C4: `calculate_block_position` sets `content.y` to the containing
block's `content.y` plus its running accumulated `content.height` plus
this box's top margin, border and padding; `layout_block_children`
processes children in document order, adding each completed child's
margin-box height to the parent's running content height; an explicit
pixel `height` property overwrites the accumulated height, otherwise
the accumulated height stands.  Concretely, for two block siblings of
heights 50px and 30px with zero margins under a parent at `content.y`
0, the siblings sit at `content.y` 0 and 50 and the parent's final
content height is 80. -/
theorem block_position_and_stacking :
    (∀ (style : StyledNode) (d containing_block : Dimensions),
      (calculate_block_position style d containing_block).content.y =
        containing_block.content.y + containing_block.content.height +
        (style.lookup "margin-top" "margin" zeroLength).to_px +
        (style.lookup "border-top-width" "border-width" zeroLength).to_px +
        (style.lookup "padding-top" "padding" zeroLength).to_px) ∧
    (∀ (cs : List LayoutBox) (d : Dimensions),
      (layout_children cs d).2.content.height =
        d.content.height + marginHeightSum (layout_children cs d).1 ∧
      (layout_children cs d).1.length = cs.length) ∧
    (∀ (c : LayoutBox) (cs : List LayoutBox) (d : Dimensions),
      ((layout_children (c :: cs) d).1).head? = some (layout c d)) ∧
    (∀ (style : StyledNode) (d : Dimensions) (h : ℚ),
      style.value "height" = some (.Length h .Px) →
      (calculate_block_height style d).content.height = h) ∧
    (∀ (style : StyledNode) (d : Dimensions),
      style.value "height" = none →
      (calculate_block_height style d).content.height = d.content.height) ∧
    ((layout_tree stackParent viewport800).map (fun b =>
      (b.dimensions.content.y, b.dimensions.content.height,
        b.children.map (fun c => c.dimensions.content.y))) = .ok (0, 80, [0, 50])) := by
  refine ⟨?_, layout_children_accumulates, ?_, ?_, ?_, stack_example_eval⟩
  · intro style d containing_block
    simp [calculate_block_position]
    ring
  · intro c cs d
    simp [layout_children]
  · intro style d h hv
    simp [calculate_block_height, hv]
  · intro style d hv
    simp [calculate_block_height, hv]

/-- Witness for `block_position_and_stacking`: the explicit-height
override and the height-unset passthrough at concrete inputs. -/
theorem block_position_and_stacking_witness :
    (calculate_block_height (blockStyled [("height", .Length 50 .Px)] []) viewport800).content.height = 50 ∧
    (calculate_block_height (blockStyled [] []) viewport800).content.height = 600 := by
  have h1 := block_position_and_stacking.2.2.2.1 (blockStyled [("height", .Length 50 .Px)] [])
    viewport800 50 rfl
  have h2 := block_position_and_stacking.2.2.2.2.1 (blockStyled [] []) viewport800 rfl
  exact ⟨h1, h2.trans rfl⟩


/-! ### Tree induction helpers -/

theorem node_strong_induction {motive : Node → Prop}
    (h : ∀ cs nt, (∀ c ∈ cs, motive c) → motive (.mk cs nt)) : ∀ n, motive n
  | .mk cs nt => h cs nt (fun c hc => node_strong_induction h c)
termination_by n => sizeOf n
decreasing_by
  simp only [Node.mk.sizeOf_spec]
  have h1 := List.sizeOf_lt_of_mem hc
  omega

theorem styled_strong_induction {motive : StyledNode → Prop}
    (h : ∀ nd sv cs, (∀ c ∈ cs, motive c) → motive (.mk nd sv cs)) : ∀ sn, motive sn
  | .mk nd sv cs => h nd sv cs (fun c hc => styled_strong_induction h c)
termination_by sn => sizeOf sn
decreasing_by
  simp only [StyledNode.mk.sizeOf_spec]
  have h1 := List.sizeOf_lt_of_mem hc
  omega

/-! ### C7: styling preserves the tree shape -/

theorem style_tree_children_shape (stylesheet : Stylesheet) (cs : List Node)
    (h : ∀ c ∈ cs, ∀ Q : PropertyMap, (style_tree_rec c stylesheet Q).shape = c.shape) :
    ∀ P : PropertyMap, styledListShape (style_tree_children cs stylesheet P) = nodeListShape cs := by
  induction cs with
  | nil => intro P; rfl
  | cons c cs ih =>
    intro P
    rw [style_tree_children, styledListShape, nodeListShape]
    rw [h c (by simp) P, ih (fun c hc Q => h c (by simp [hc]) Q) P]

theorem style_tree_rec_shape (stylesheet : Stylesheet) :
    ∀ n : Node, ∀ P : PropertyMap, (style_tree_rec n stylesheet P).shape = n.shape := by
  refine node_strong_induction ?_
  intro cs nt ih P
  simp only [style_tree_rec, Node.shape, StyledNode.shape]
  rw [style_tree_children_shape stylesheet cs ih]

theorem style_tree_children_textEmpty (stylesheet : Stylesheet) (cs : List Node)
    (h : ∀ c ∈ cs, ∀ Q : PropertyMap, (style_tree_rec c stylesheet Q).textNodesEmpty = true) :
    ∀ P : PropertyMap, textNodesEmptyList (style_tree_children cs stylesheet P) = true := by
  induction cs with
  | nil => intro P; rfl
  | cons c cs ih =>
    intro P
    rw [style_tree_children, textNodesEmptyList]
    rw [h c (by simp) P, ih (fun c hc Q => h c (by simp [hc]) Q) P]
    rfl

theorem style_tree_rec_textEmpty (stylesheet : Stylesheet) :
    ∀ n : Node, ∀ P : PropertyMap, (style_tree_rec n stylesheet P).textNodesEmpty = true := by
  refine node_strong_induction ?_
  intro cs nt ih P
  simp only [style_tree_rec, StyledNode.textNodesEmpty]
  rw [style_tree_children_textEmpty stylesheet cs ih]
  cases nt <;> simp [Node.node_type]

/-- C7: for every document tree and stylesheet, the styled tree has
exactly the same shape — node count, child order, nesting — as the
source document tree, and every text node carries an empty property
map. -/
theorem style_tree_shape_preservation :
    (∀ (root : Node) (stylesheet : Stylesheet),
      (style_tree root stylesheet).shape = root.shape) ∧
    (∀ (root : Node) (stylesheet : Stylesheet),
      (style_tree root stylesheet).shape.count = root.shape.count) ∧
    (∀ (root : Node) (stylesheet : Stylesheet),
      (style_tree root stylesheet).textNodesEmpty = true) := by
  exact ⟨fun root stylesheet => style_tree_rec_shape stylesheet root _,
    fun root stylesheet => congrArg TreeShape.count (style_tree_rec_shape stylesheet root _),
    fun root stylesheet => style_tree_rec_textEmpty stylesheet root _⟩

end Violet
